import Mathlib

/-
  Verification development for the position fusion and availability engine of
  the geoclue yandex provider (src/plugin/yandexprovider.cpp).

  Modelling conventions:
  - C++ double values are modelled by an idealised IEEE-754 type Fl below:
    NaN, signed infinities, and exact finite rational values.  Finite
    arithmetic is exact (binary rounding is not modelled); the NaN and
    infinity propagation rules follow IEEE 754, which is what the claims
    about boundary behaviour depend on.
  - quint32 / quint16 / int values are modelled as Nat or Int; the one place
    where the 32-bit range matters (the UINT_MAX sentinel in
    minimumRequestedUpdateInterval) is modelled explicitly.
  - QMap / QSet containers are modelled as association lists and lists; only
    lookup, insert, contains and size are used by the translated code, and
    the translated operations mirror those member functions.
  - Timestamps are Int milliseconds; the source reads the current time twice
    inside updateLocationFromCells (once for the candidate timestamp, once
    for the arbitration age test); the model passes a single now value.
-/

/-! ## Constants (anonymous namespace, yandexprovider.cpp lines 37-42) -/

def MinimumCalculatedAccuracy : ℤ := 2500

def QuitIdleTime : ℕ := 30000

def FixTimeout : ℕ := 30000

def MinimumInterval : ℕ := 10000

def ReuseInterval : ℤ := 30000

def FallbackInterval : ℤ := 120000

/-- The C UINT_MAX sentinel used by minimumRequestedUpdateInterval. -/
def UINT32_MAX : ℕ := 4294967295

/-! ## Idealised IEEE-754 doubles -/

/-- Idealised C++ double: NaN, a signed infinity, or an exact finite rational.
    Finite arithmetic is exact; special values follow IEEE 754 (0/0 is NaN,
    x/0 is a signed infinity for finite x with nonzero sign, NaN propagates,
    every ordered comparison involving NaN is false). -/
inductive Fl where
  | nan : Fl
  | inf : Bool → Fl
  | fin : ℚ → Fl
deriving DecidableEq

def Fl.add : Fl → Fl → Fl
  | .nan, _ => .nan
  | _, .nan => .nan
  | .inf s, .inf t => if s = t then .inf s else .nan
  | .inf s, .fin _ => .inf s
  | .fin _, .inf t => .inf t
  | .fin a, .fin b => .fin (a + b)

def Fl.mul : Fl → Fl → Fl
  | .nan, _ => .nan
  | _, .nan => .nan
  | .inf s, .inf t => .inf (s = t)
  | .inf s, .fin b => if b = 0 then .nan else .inf (s = decide (0 < b))
  | .fin a, .inf t => if a = 0 then .nan else .inf (decide (0 < a) = t)
  | .fin a, .fin b => .fin (a * b)

def Fl.div : Fl → Fl → Fl
  | .nan, _ => .nan
  | _, .nan => .nan
  | .inf _, .inf _ => .nan
  | .inf s, .fin b => if b = 0 then .inf s else .inf (s = decide (0 < b))
  | .fin _, .inf _ => .fin 0
  | .fin a, .fin b =>
      if b = 0 then (if a = 0 then .nan else .inf (decide (0 < a)))
      else .fin (a / b)

/-- The operator< of doubles: false whenever either side is NaN. -/
def Fl.blt : Fl → Fl → Bool
  | .nan, _ => false
  | _, .nan => false
  | .inf s, .inf t => !s && t
  | .inf s, .fin _ => !s
  | .fin _, .inf t => t
  | .fin a, .fin b => decide (a < b)

/-- The operator<= of doubles: false whenever either side is NaN. -/
def Fl.ble : Fl → Fl → Bool
  | .nan, _ => false
  | _, .nan => false
  | .inf s, .inf t => !s || t
  | .inf s, .fin _ => !s
  | .fin _, .inf t => t
  | .fin a, .fin b => decide (a ≤ b)

def Fl.isNaN : Fl → Bool
  | .nan => true
  | _ => false

/-! ## Cell data model (mlsdb types used by the provider) -/

inductive MlsdbCellType where
  | gsm : MlsdbCellType
  | umts : MlsdbCellType
  | lte : MlsdbCellType
deriving DecidableEq

/-- MlsdbUniqueCellId: cell type, cell id, location code, mcc, mnc. -/
structure MlsdbUniqueCellId where
  cellType : MlsdbCellType
  cellId : ℕ
  locationCode : ℕ
  mcc : ℕ
  mnc : ℕ
deriving DecidableEq

/-- MlsdbCoords: a latitude / longitude pair from the offline dataset
    (always finite, hence plain rationals). -/
structure MlsdbCoords where
  lat : ℚ
  lon : ℚ
deriving DecidableEq

/-- YandexProvider::CellPositioningData: a unique cell id together with the
    observed signal strength (quint32, 0 = unknown). -/
structure CellPositioningData where
  uniqueCellId : MlsdbUniqueCellId
  signalStrength : ℕ
deriving DecidableEq

/-! ## Association lists standing in for QMap -/

/-- Lookup in an association list (QMap::value / QMap::contains). -/
def alookup {α β : Type} [DecidableEq α] : List (α × β) → α → Option β
  | [], _ => none
  | p :: t, k => if p.1 = k then some p.2 else alookup t k

/-- QMap::insert semantics: replace the value under an existing key,
    otherwise add a new entry. -/
def ainsert {α β : Type} [DecidableEq α] (l : List (α × β)) (k : α) (v : β) :
    List (α × β) :=
  if (alookup l k).isSome then
    l.map (fun p => if p.1 = k then (p.1, v) else p)
  else
    l ++ [(k, v)]

/-! ## Cell location cache (m_uniqueCellIdToLocation / m_knownCellIdsWithUnknownLocations) -/

/-- The two in-memory caches of the provider. -/
structure CacheState where
  uniqueCellIdToLocation : List (MlsdbUniqueCellId × MlsdbCoords)
  knownCellIdsWithUnknownLocations : List MlsdbUniqueCellId
deriving DecidableEq

/-- Outcome of resolving one cell id: the resulting cache state, the
    coordinates if known, and the number of external dataset lookups
    performed. -/
structure ResolveOutcome where
  cache : CacheState
  result : Option MlsdbCoords
  lookups : ℕ
deriving DecidableEq

/-- The cache consultation logic inlined in
    YandexProvider::updateLocationFromCells (lines 430-447), with the
    external dataset lookup searchForCellIdLocation abstracted as the
    search parameter (the dataset is read-only, so search is a fixed
    function of the cell id). -/
def resolveCell (search : MlsdbUniqueCellId → Option MlsdbCoords)
    (st : CacheState) (id : MlsdbUniqueCellId) : ResolveOutcome :=
  match alookup st.uniqueCellIdToLocation id with
  | some coords => ⟨st, some coords, 0⟩
  | none =>
    if id ∈ st.knownCellIdsWithUnknownLocations then
      ⟨st, none, 0⟩
    else
      match search id with
      | some coords =>
          ⟨⟨(id, coords) :: st.uniqueCellIdToLocation,
            st.knownCellIdsWithUnknownLocations⟩, some coords, 1⟩
      | none =>
          ⟨⟨st.uniqueCellIdToLocation,
            id :: st.knownCellIdsWithUnknownLocations⟩, none, 1⟩

/-- Accumulator of the first loop of updateLocationFromCells: the evolving
    cache, the cellLocations QMap, the running totalSignalStrength, and the
    total number of external lookups issued. -/
structure GatherResult where
  cache : CacheState
  cellLocations : List (MlsdbUniqueCellId × MlsdbCoords)
  totalSignalStrength : ℚ
  lookups : ℕ
deriving DecidableEq

/-- One iteration of the first loop of updateLocationFromCells
    (lines 429-451). -/
def gatherStep (search : MlsdbUniqueCellId → Option MlsdbCoords)
    (acc : GatherResult) (cell : CellPositioningData) : GatherResult :=
  match resolveCell search acc.cache cell.uniqueCellId with
  | ⟨cache, none, lookups⟩ =>
      { acc with cache := cache, lookups := acc.lookups + lookups }
  | ⟨cache, some coords, lookups⟩ =>
      { cache := cache,
        cellLocations := ainsert acc.cellLocations cell.uniqueCellId coords,
        totalSignalStrength := acc.totalSignalStrength + (cell.signalStrength : ℚ),
        lookups := acc.lookups + lookups }

/-- The first loop of updateLocationFromCells (lines 427-451). -/
def gatherCellLocations (search : MlsdbUniqueCellId → Option MlsdbCoords)
    (st : CacheState) (cells : List CellPositioningData) : GatherResult :=
  cells.foldl (gatherStep search) ⟨st, [], 0, 0⟩

/-! ## Triangulation (weighted centroid, lines 464-491) -/

/-- One iteration of the second loop of updateLocationFromCells
    (lines 467-479): accumulate weight * coordinate for cells whose
    location is known. -/
def wpStep (cellLocations : List (MlsdbUniqueCellId × MlsdbCoords))
    (totalSignalStrength : ℚ) (acc : Fl × Fl) (cell : CellPositioningData) :
    Fl × Fl :=
  match alookup cellLocations cell.uniqueCellId with
  | none => acc
  | some coords =>
      let weight := Fl.div (.fin (cell.signalStrength : ℚ)) (.fin totalSignalStrength)
      (Fl.add acc.1 (Fl.mul weight (.fin coords.lat)),
       Fl.add acc.2 (Fl.mul weight (.fin coords.lon)))

/-- deviceLatitude / deviceLongitude accumulation of
    updateLocationFromCells (lines 465-479). -/
def weightedPosition (cellLocations : List (MlsdbUniqueCellId × MlsdbCoords))
    (totalSignalStrength : ℚ) (cells : List CellPositioningData) : Fl × Fl :=
  cells.foldl (wpStep cellLocations totalSignalStrength) (.fin 0, .fin 0)

/-! ## Location / Accuracy values -/

/-- Modelled from the spec: the Location and Accuracy value classes are
    declared outside src/ (only their use sites are in the repository
    snapshot).  Spec section 3, Fix: timestampMillis int64 with 0 meaning
    invalid; latitude, longitude, altitude float64 with NaN meaning absent;
    accuracy horizontal and vertical float64.  A default-constructed value
    has timestamp 0 and all float fields NaN. -/
structure Location where
  timestamp : ℤ
  latitude : Fl
  longitude : Fl
  altitude : Fl
  accuracyHorizontal : Fl
  accuracyVertical : Fl
deriving DecidableEq

/-- A default-constructed Location (no valid fix). -/
def Location.invalid : Location :=
  ⟨0, .nan, .nan, .nan, .nan, .nan⟩

/-- Construction of deviceLocation in updateLocationFromCells
    (lines 481-491), for the case cellLocations.size() != 0: current
    timestamp, the weighted-centroid coordinates, no altitude, and
    horizontal accuracy qMax(MinimumCalculatedAccuracy,
    10000 - 1000 * cellLocations.size()). -/
def estimateLocation (now : ℤ)
    (cellLocations : List (MlsdbUniqueCellId × MlsdbCoords))
    (totalSignalStrength : ℚ) (cells : List CellPositioningData) : Location :=
  let p := weightedPosition cellLocations totalSignalStrength cells
  { timestamp := now,
    latitude := p.1,
    longitude := p.2,
    altitude := .nan,
    accuracyHorizontal :=
      .fin ((max MinimumCalculatedAccuracy
              (10000 - 1000 * (cellLocations.length : ℤ)) : ℤ) : ℚ),
    accuracyVertical := .nan }

/-- The fix arbitration at the end of updateLocationFromCells
    (lines 495-508): keep the current location exactly when it is valid,
    younger than FallbackInterval, and strictly more accurate than the
    candidate; otherwise adopt the candidate. -/
def arbitrate (now : ℤ) (current candidate : Location) : Location :=
  if current.timestamp ≠ 0
      ∧ (now - current.timestamp) < FallbackInterval
      ∧ Fl.blt current.accuracyHorizontal candidate.accuracyHorizontal = true
  then current
  else candidate

/-- The adoption condition exactly as claim C2 words it: the candidate is
    adopted when the current fix is invalid (timestamp 0), or the elapsed
    time since the current fix strictly exceeds FallbackInterval, or the
    candidate accuracy value is less than or equal to the current one
    (IEEE comparison on the accuracy doubles).  This definition follows the
    claim text and is compared against arbitrate, which follows the
    source. -/
def claimedAdoptCondition (now : ℤ) (current candidate : Location) : Prop :=
  current.timestamp = 0
    ∨ FallbackInterval < now - current.timestamp
    ∨ Fl.ble candidate.accuracyHorizontal current.accuracyHorizontal = true

/-! ## Provider state and operations -/

/-- DBus caller identities (QString service names) are opaque; only equality
    of identities matters, so they are modelled as naturals. -/
abbrev ServiceId := ℕ

/-- YandexProvider::ServiceData: per-caller reference count and requested
    update interval (quint32, 0 = no preference).  referenceCount is only
    ever incremented from 0 and decremented when positive, hence Nat. -/
structure ServiceData where
  referenceCount : ℕ
  updateInterval : ℕ
deriving DecidableEq

inductive YPStatus where
  | unavailable : YPStatus
  | acquiring : YPStatus
  | available : YPStatus
deriving DecidableEq

/-- The mutable state of the provider relevant to the claims: the two cell
    caches, current and last locations, status, the fix-lost and
    recalculate-position timers (the recalculate timer carries its
    interval), the idle timer, the positioning flags, and the watched
    services table.  Fields of the source class not involved in any claim
    (the settings watcher, the online locator object, the signal-update
    flags) are omitted. -/
structure ProviderState where
  cache : CacheState
  currentLocation : Location
  lastLocation : Location
  status : YPStatus
  fixLostRunning : Bool
  recalcTimer : Option ℕ
  idleRunning : Bool
  positioningEnabled : Bool
  positioningStarted : Bool
  watchedServices : List (ServiceId × ServiceData)
deriving DecidableEq

/-- YandexProvider::setStatus (lines 685-692): redundant transitions are
    suppressed (no StatusChanged emission), the stored status is the same
    either way. -/
def setStatus (st : ProviderState) (s : YPStatus) : ProviderState :=
  if st.status = s then st else { st with status := s }

/-- YandexProvider::setLocation (lines 511-529): a location with non-zero
    timestamp sets status Available, (re)starts the fix-lost timer and
    remembers the previous current location; a zero-timestamp location
    resets the last location.  The current location always becomes the
    argument. -/
def setLocation (st : ProviderState) (location : Location) : ProviderState :=
  if location.timestamp ≠ 0 then
    let st1 := setStatus st .available
    { st1 with
      fixLostRunning := true,
      lastLocation := st.currentLocation,
      currentLocation := location }
  else
    { st with
      lastLocation := Location.invalid,
      currentLocation := location }

/-- The Location built by YandexProvider::onlineLocationFound
    (lines 349-356): current timestamp, returned latitude, longitude and
    horizontal accuracy, no altitude, no vertical accuracy. -/
def onlineLocation (now : ℤ) (latitude longitude accuracy : Fl) : Location :=
  { timestamp := now,
    latitude := latitude,
    longitude := longitude,
    altitude := .nan,
    accuracyHorizontal := accuracy,
    accuracyVertical := .nan }

/-- YandexProvider::onlineLocationFound (lines 345-359): build the online
    fix and pass it directly to setLocation. -/
def onlineLocationFound (st : ProviderState) (now : ℤ)
    (latitude longitude accuracy : Fl) : ProviderState :=
  setLocation st (onlineLocation now latitude longitude accuracy)

/-- YandexProvider::updateLocationFromCells (lines 424-509): resolve the
    cells against the caches, return early when none resolved, otherwise
    build the candidate fix and run the arbitration before setLocation. -/
def updateLocationFromCells (search : MlsdbUniqueCellId → Option MlsdbCoords)
    (now : ℤ) (st : ProviderState) (cells : List CellPositioningData) :
    ProviderState :=
  let r := gatherCellLocations search st.cache cells
  let st1 := { st with cache := r.cache }
  if r.cellLocations.length = 0 then st1
  else
    let deviceLocation :=
      estimateLocation now r.cellLocations r.totalSignalStrength cells
    setLocation st1 (arbitrate now st1.currentLocation deviceLocation)

/-- YandexProvider::minimumRequestedUpdateInterval (lines 718-740): fold the
    watched services with the UINT_MAX sentinel, skipping stale entries and
    entries with no requested interval, then apply the MinimumInterval
    floor. -/
def requestedFold (services : List ServiceData) : ℕ :=
  services.foldl
    (fun acc d =>
      if d.referenceCount = 0 then acc
      else if d.updateInterval = 0 then acc
      else min acc d.updateInterval)
    UINT32_MAX

def minimumRequestedUpdateInterval (services : List ServiceData) : ℕ :=
  if requestedFold services = UINT32_MAX then MinimumInterval
  else max (requestedFold services) MinimumInterval

/-- Update the requested interval of one watched service
    (the QMap bracket assignment in SetOptions, lines 247-248). -/
def setServiceInterval (l : List (ServiceId × ServiceData)) (s : ServiceId)
    (v : ℕ) : List (ServiceId × ServiceData) :=
  l.map (fun p => if p.1 = s then (p.1, { p.2 with updateInterval := v }) else p)

/-- Outcome of a SetOptions call: rejected corresponds to the early-return
    warning path for callers without an active entry. -/
inductive SetOptionsResult where
  | rejected : SetOptionsResult
  | accepted : SetOptionsResult
deriving DecidableEq

/-- YandexProvider::SetOptions (lines 235-253), with the options map
    reduced to its only consulted key: the UpdateInterval value if present.
    A caller without a watched-services entry is rejected and the state is
    untouched; an active caller with an UpdateInterval option has its
    interval updated and the recalculate timer restarted at the recomputed
    minimum interval. -/
def SetOptions (st : ProviderState) (s : ServiceId) (updateIntervalOpt : Option ℕ) :
    ProviderState × SetOptionsResult :=
  match alookup st.watchedServices s with
  | none => (st, .rejected)
  | some _ =>
    match updateIntervalOpt with
    | none => (st, .accepted)
    | some v =>
      let services := setServiceInterval st.watchedServices s v
      let ui := minimumRequestedUpdateInterval (services.map Prod.snd)
      ({ st with watchedServices := services, recalcTimer := some ui }, .accepted)

/-- YandexProvider::stopPositioningIfNeeded (lines 668-683): a no-op when
    positioning is already stopped or still needed; otherwise clear the
    started flag, force status Unavailable, and stop the fix-lost and
    recalculate timers. -/
def stopPositioningIfNeeded (st : ProviderState) : ProviderState :=
  if st.positioningStarted = false then st
  else if st.positioningEnabled = true ∧ st.watchedServices ≠ [] then st
  else
    let st1 := setStatus { st with positioningStarted := false } .unavailable
    { st1 with fixLostRunning := false, recalcTimer := none }

/-! ## Event alphabet for the status state machine

  Every mutation of m_status and of the fix-lost timer in the source
  factors through three code paths: setLocation (called from
  onlineLocationFound, updateLocationFromCells and the reuse branch of
  timerEvent), the fix-lost branch of timerEvent (lines 291-293), and the
  body of stopPositioningIfNeeded.  SetOptions is included to cover the
  subscriber-facing operation; it touches neither the status nor the
  fix-lost timer. -/

inductive Ev where
  | fixLostFire : Ev
  | setLocationEv : Location → Ev
  | stopPositioningEv : Ev
  | setOptionsEv : ServiceId → Option ℕ → Ev
deriving DecidableEq

/-- An event is a fix adoption when it is a setLocation call with a
    non-zero timestamp (spec: a fix with non-zero timestamp is adopted). -/
def isAdoption : Ev → Bool
  | .setLocationEv loc => loc.timestamp != 0
  | _ => false

/-- One step of the provider event machine.  A fix-lost timer event only
    occurs while the timer is running (lines 291-293: the handler stops the
    timer and sets status Acquiring). -/
def stepEv (st : ProviderState) : Ev → ProviderState
  | .fixLostFire =>
      if st.fixLostRunning then
        setStatus { st with fixLostRunning := false } .acquiring
      else st
  | .setLocationEv loc => setLocation st loc
  | .stopPositioningEv => stopPositioningIfNeeded st
  | .setOptionsEv s o => (SetOptions st s o).1

/-! ## seenCellIds (lines 370-422) -/

/-- QOfonoExtCell::InvalidValue, the INT_MAX sentinel of the external
    qofonoext library for an unavailable cell property. -/
def QOfonoInvalidValue : ℤ := 2147483647

/-- The cell types reported by QOfonoExtCell that the source inspects;
    unknownKind covers every other value (mapped to UMTS, line 392). -/
inductive QOfonoCellType where
  | lte : QOfonoCellType
  | gsm : QOfonoCellType
  | wcdma : QOfonoCellType
  | unknownKind : QOfonoCellType
deriving DecidableEq

/-- A raw neighbour cell as read from the cell watcher: type, cid, ci, lac,
    tac (ints, possibly the InvalidValue sentinel), mcc and mnc (already
    truncated to quint16 at lines 384-385), and the signal strength. -/
structure OfonoCell where
  kind : QOfonoCellType
  cid : ℤ
  ci : ℤ
  lac : ℤ
  tac : ℤ
  mcc : ℕ
  mnc : ℕ
  signalStrength : ℕ
deriving DecidableEq

/-- static_cast<quint32>(int): reduction modulo 2^32. -/
def toU32 (x : ℤ) : ℕ := (x % 4294967296).toNat

/-- The cell type mapping at lines 386-392. -/
def toMlsdbCellType : QOfonoCellType → MlsdbCellType
  | .lte => .lte
  | .gsm => .gsm
  | .wcdma => .umts
  | .unknownKind => .umts

/-- The validity test and identity construction at lines 393-405: prefer
    (cid, lac), fall back to (ci, tac), and reject the cell when neither
    cell id is usable or the mcc is zero. -/
def cellIdentityOf (c : OfonoCell) : Option MlsdbUniqueCellId :=
  if c.cid ≠ QOfonoInvalidValue ∧ c.cid ≠ 0 ∧ c.mcc ≠ 0 then
    some ⟨toMlsdbCellType c.kind, toU32 c.cid, toU32 c.lac, c.mcc, c.mnc⟩
  else if c.ci ≠ QOfonoInvalidValue ∧ c.ci ≠ 0 ∧ c.mcc ≠ 0 then
    some ⟨toMlsdbCellType c.kind, toU32 c.ci, toU32 c.tac, c.mcc, c.mnc⟩
  else
    none

/-- One iteration of the loop of seenCellIds (lines 380-420): skip cells
    with no usable identity, skip identities already seen, otherwise append
    the observation and record the identity.  (The source also tracks
    maxNeighborSignalStrength in this loop; that local is never read
    afterwards and does not influence the returned list.) -/
def seenStep (acc : List CellPositioningData × List MlsdbUniqueCellId)
    (c : OfonoCell) : List CellPositioningData × List MlsdbUniqueCellId :=
  match cellIdentityOf c with
  | none => acc
  | some id =>
    if id ∈ acc.2 then acc
    else (acc.1 ++ [⟨id, c.signalStrength⟩], id :: acc.2)

/-- YandexProvider::seenCellIds (lines 370-422): empty when cell data is
    not allowed, otherwise the deduplicated list of valid observations. -/
def seenCellIds (cellDataAllowed : Bool) (raws : List OfonoCell) :
    List CellPositioningData :=
  if cellDataAllowed then (raws.foldl seenStep ([], [])).1 else []

/-! ## The effective interval as the spec words it (section 4.6) -/

/-- The effective recomputation interval exactly as spec section 4.6 states
    it: the minimum of all subscribers non-zero requested intervals floored
    at MinimumInterval, or MinimumInterval when no subscriber expresses a
    preference.  This definition follows the spec text and is compared
    against minimumRequestedUpdateInterval, which follows the source. -/
def effectiveIntervalSpec (services : List ServiceData) : ℕ :=
  match (services.map (fun d => d.updateInterval)).filter (fun i => i != 0) with
  | [] => MinimumInterval
  | h :: t => max (t.foldl min h) MinimumInterval

/-! ## Cache invariant and reachability (claim C6) -/

/-- Mutual exclusivity of the two caches: no cell id known to be
    unresolvable also has a cached location. -/
def CacheDisjoint (st : CacheState) : Prop :=
  ∀ id ∈ st.knownCellIdsWithUnknownLocations,
    alookup st.uniqueCellIdToLocation id = none

/-- Cache states reachable by the engine: both caches start empty
    (constructor init) and every mutation of either cache in the source
    goes through the resolution loop of updateLocationFromCells, i.e.
    through gatherCellLocations (constructor step; the dataset lookup
    function and the observed cells are arbitrary at each step). -/
inductive ReachableCache : CacheState → Prop where
  | init : ReachableCache ⟨[], []⟩
  | step (search : MlsdbUniqueCellId → Option MlsdbCoords)
      (cells : List CellPositioningData) {st : CacheState} :
      ReachableCache st →
      ReachableCache (gatherCellLocations search st cells).cache

/-! ## Invariant of the seenCellIds fold (claim C10) -/

/-- Invariant of the seenCellIds accumulator: the collected observations
    have pairwise distinct identities, and the seen-set is exactly the set
    of collected identities. -/
def SeenInv (acc : List CellPositioningData × List MlsdbUniqueCellId) : Prop :=
  (acc.1.map (fun o => o.uniqueCellId)).Nodup
    ∧ ∀ id, id ∈ acc.2 ↔ id ∈ acc.1.map (fun o => o.uniqueCellId)

/-! ## Concrete example data used by witnesses and counterexamples -/

def exCellIdA : MlsdbUniqueCellId := ⟨.gsm, 1, 1, 262, 1⟩

def exCellIdB : MlsdbUniqueCellId := ⟨.gsm, 2, 1, 262, 1⟩

def exCellIdC : MlsdbUniqueCellId := ⟨.gsm, 3, 1, 262, 1⟩

def exCellIdZ : MlsdbUniqueCellId := ⟨.lte, 9, 2, 250, 2⟩

/-- The three-cell configuration of claim C1: coordinates (0,0), (0,10),
    (10,0). -/
def exLocs : List (MlsdbUniqueCellId × MlsdbCoords) :=
  [(exCellIdA, ⟨0, 0⟩), (exCellIdB, ⟨0, 10⟩), (exCellIdC, ⟨10, 0⟩)]

/-- The three cells of claim C1 with equal signal strength 7. -/
def exCells : List CellPositioningData :=
  [⟨exCellIdA, 7⟩, ⟨exCellIdB, 7⟩, ⟨exCellIdC, 7⟩]

/-- Coordinate assignment matching exLocs. -/
def exG : CellPositioningData → MlsdbCoords := fun c =>
  if c.uniqueCellId = exCellIdA then ⟨0, 0⟩
  else if c.uniqueCellId = exCellIdB then ⟨0, 10⟩
  else ⟨10, 0⟩

/-- An external dataset knowing only exCellIdA. -/
def exSearch : MlsdbUniqueCellId → Option MlsdbCoords := fun id =>
  if id = exCellIdA then some ⟨3, 4⟩ else none

/-- An external dataset knowing only exCellIdZ. -/
def searchZ : MlsdbUniqueCellId → Option MlsdbCoords := fun id =>
  if id = exCellIdZ then some ⟨5, 5⟩ else none

/-- A provider state holding no valid fix. -/
def initState : ProviderState :=
  { cache := ⟨[], []⟩,
    currentLocation := Location.invalid,
    lastLocation := Location.invalid,
    status := .unavailable,
    fixLostRunning := false,
    recalcTimer := none,
    idleRunning := true,
    positioningEnabled := true,
    positioningStarted := true,
    watchedServices := [(1, ⟨1, 0⟩)] }

/-- A provider state holding a fresh, accurate fix (timestamp 1000,
    horizontal accuracy 100). -/
def freshFixState : ProviderState :=
  { cache := ⟨[], []⟩,
    currentLocation := ⟨1000, .fin 1, .fin 1, .nan, .fin 100, .nan⟩,
    lastLocation := Location.invalid,
    status := .available,
    fixLostRunning := true,
    recalcTimer := some 10000,
    idleRunning := false,
    positioningEnabled := true,
    positioningStarted := true,
    watchedServices := [(1, ⟨1, 0⟩)] }

/-- A provider state with two active subscribers (service 1 with no
    requested interval, service 2 requesting 25000 ms). -/
def svcState : ProviderState :=
  { cache := ⟨[], []⟩,
    currentLocation := Location.invalid,
    lastLocation := Location.invalid,
    status := .acquiring,
    fixLostRunning := false,
    recalcTimer := some 10000,
    idleRunning := false,
    positioningEnabled := true,
    positioningStarted := true,
    watchedServices := [(1, ⟨1, 0⟩), (2, ⟨2, 25000⟩)] }

/-- A current fix from one millisecond after the epoch with horizontal
    accuracy 100. -/
def cexCurrent : Location := ⟨1, .fin 0, .fin 0, .nan, .fin 100, .nan⟩

/-- A candidate fix computed at time 120001 with the worse horizontal
    accuracy 200. -/
def cexCandidate : Location := ⟨120001, .fin 5, .fin 5, .nan, .fin 200, .nan⟩

/-- A valid raw GSM cell: cid 42, lac 5, mcc 262, mnc 1, strength 10. -/
def exRawA : OfonoCell := ⟨.gsm, 42, 0, 5, 0, 262, 1, 10⟩

/-- A second sighting of the same cell identity with strength 20. -/
def exRawB : OfonoCell := ⟨.gsm, 42, 0, 5, 0, 262, 1, 20⟩

/-- An invalid raw cell: both cid and ci are 0. -/
def exRawBad : OfonoCell := ⟨.lte, 0, 0, 5, 7, 262, 1, 30⟩

/-- A current fix aged 50 ms with accuracy 300, for the C2 witness. -/
def wCur : Location := ⟨10, .fin 1, .fin 1, .nan, .fin 300, .nan⟩

/-- A candidate fix with the better accuracy 200, for the C2 witness. -/
def wCand : Location := ⟨60, .fin 2, .fin 2, .nan, .fin 200, .nan⟩

/-! ## Triangulation lemmas -/

lemma fl_div_fin (a b : ℚ) (hb : b ≠ 0) :
    Fl.div (.fin a) (.fin b) = .fin (a / b) := by
  simp [Fl.div, hb]

lemma fl_add_nan (x : Fl) : Fl.add x Fl.nan = Fl.nan := by
  cases x <;> rfl

lemma fl_add_nan_left (x : Fl) : Fl.add Fl.nan x = Fl.nan := by
  cases x <;> rfl

lemma fl_mul_nan_left (x : Fl) : Fl.mul Fl.nan x = Fl.nan := by
  cases x <;> rfl

lemma wp_foldl_fin (locs : List (MlsdbUniqueCellId × MlsdbCoords)) (total : ℚ)
    (ht : total ≠ 0) (g : CellPositioningData → MlsdbCoords) :
    ∀ (cells : List CellPositioningData),
      (∀ c ∈ cells, alookup locs c.uniqueCellId = some (g c)) →
      ∀ (x y : ℚ),
        cells.foldl (wpStep locs total) (.fin x, .fin y) =
          (.fin (x + (cells.map
              (fun c => ((c.signalStrength : ℚ) / total) * (g c).lat)).sum),
           .fin (y + (cells.map
              (fun c => ((c.signalStrength : ℚ) / total) * (g c).lon)).sum)) := by
  intro cells
  induction cells with
  | nil => intro _ x y; simp
  | cons c cs ih =>
    intro h x y
    have hc := h c (List.mem_cons_self c cs)
    have hcs : ∀ a ∈ cs, alookup locs a.uniqueCellId = some (g a) :=
      fun a ha => h a (List.mem_cons_of_mem c ha)
    have hstep : wpStep locs total (.fin x, .fin y) c =
        (.fin (x + ((c.signalStrength : ℚ) / total) * (g c).lat),
         .fin (y + ((c.signalStrength : ℚ) / total) * (g c).lon)) := by
      unfold wpStep
      rw [hc, fl_div_fin _ _ ht]
      rfl
    simp only [List.foldl_cons, List.map_cons, List.sum_cons, hstep, ih hcs]
    simp [add_assoc]

/-- Claim C1: on resolved cell observations with positive total signal
    strength, the estimated location is the signal-strength-weighted
    centroid of the resolved cell coordinates, and the horizontal accuracy
    is max(MinimumCalculatedAccuracy, 10000 - 1000 * resolvedCount). -/
theorem estimateLocation_weighted_centroid (now : ℤ)
    (locs : List (MlsdbUniqueCellId × MlsdbCoords)) (total : ℚ)
    (g : CellPositioningData → MlsdbCoords) (cells : List CellPositioningData)
    (hg : ∀ c ∈ cells, alookup locs c.uniqueCellId = some (g c))
    (_htot : total = (cells.map (fun c => (c.signalStrength : ℚ))).sum)
    (hpos : 0 < total) :
    estimateLocation now locs total cells =
      { timestamp := now,
        latitude := .fin ((cells.map
            (fun c => ((c.signalStrength : ℚ) / total) * (g c).lat)).sum),
        longitude := .fin ((cells.map
            (fun c => ((c.signalStrength : ℚ) / total) * (g c).lon)).sum),
        altitude := .nan,
        accuracyHorizontal :=
          .fin ((max MinimumCalculatedAccuracy
                  (10000 - 1000 * (locs.length : ℤ)) : ℤ) : ℚ),
        accuracyVertical := .nan } := by
  have ht : total ≠ 0 := ne_of_gt hpos
  unfold estimateLocation weightedPosition
  rw [wp_foldl_fin locs total ht g cells hg 0 0]
  simp

/-- Witness for claim C1: the three cells of the claim at (0,0), (0,10),
    (10,0) with equal signal strength 7 give position (10/3, 10/3) and
    horizontal accuracy 7000. -/
theorem estimateLocation_weighted_centroid_witness :
    estimateLocation 1000 exLocs 21 exCells =
      { timestamp := 1000,
        latitude := .fin (10 / 3),
        longitude := .fin (10 / 3),
        altitude := .nan,
        accuracyHorizontal := .fin 7000,
        accuracyVertical := .nan } := by
  have h := estimateLocation_weighted_centroid 1000 exLocs 21 exG exCells
    (by decide) (by norm_num [exCells]) (by norm_num)
  rw [h]
  simp only [exCells, exLocs, exG, exCellIdA, exCellIdB, exCellIdC,
    MinimumCalculatedAccuracy, List.map_cons, List.map_nil, List.sum_cons,
    List.sum_nil, List.length_cons, List.length_nil]
  norm_num

/-! ## Zero-total-signal-strength behaviour (claim C4) -/

lemma wp_foldl_nan (locs : List (MlsdbUniqueCellId × MlsdbCoords)) (total : ℚ) :
    ∀ (cells : List CellPositioningData),
      cells.foldl (wpStep locs total) (Fl.nan, Fl.nan) = (Fl.nan, Fl.nan) := by
  intro cells
  induction cells with
  | nil => rfl
  | cons c cs ih =>
    have hstep : wpStep locs total (Fl.nan, Fl.nan) c = (Fl.nan, Fl.nan) := by
      unfold wpStep
      cases alookup locs c.uniqueCellId with
      | none => rfl
      | some coords => simp [fl_add_nan_left]
    simp only [List.foldl_cons, hstep, ih]

lemma wp_foldl_zero_total (locs : List (MlsdbUniqueCellId × MlsdbCoords)) :
    ∀ (cells : List CellPositioningData) (x y : ℚ),
      (∀ c ∈ cells, c.signalStrength = 0) →
      (∃ c ∈ cells, (alookup locs c.uniqueCellId).isSome) →
      cells.foldl (wpStep locs 0) (.fin x, .fin y) = (Fl.nan, Fl.nan) := by
  intro cells
  induction cells with
  | nil =>
    intro x y _ hex
    simp at hex
  | cons c cs ih =>
    intro x y hz hex
    cases hl : alookup locs c.uniqueCellId with
    | some coords =>
      have hs : c.signalStrength = 0 := hz c (List.mem_cons_self c cs)
      have hstep : wpStep locs 0 (.fin x, .fin y) c = (Fl.nan, Fl.nan) := by
        simp only [wpStep, hl, hs]
        norm_num [Fl.div, fl_mul_nan_left, fl_add_nan]
      simp only [List.foldl_cons, hstep, wp_foldl_nan]
    | none =>
      have hstep : wpStep locs 0 (.fin x, .fin y) c = (.fin x, .fin y) := by
        unfold wpStep
        rw [hl]
      obtain ⟨a, ha, hsome⟩ := hex
      rcases List.mem_cons.mp ha with rfl | ha2
      · rw [hl] at hsome
        simp at hsome
      · simp only [List.foldl_cons, hstep]
        exact ih x y (fun b hb => hz b (List.mem_cons_of_mem c hb)) ⟨a, ha2, hsome⟩

/-- Claim C4 counterexample: for the single resolved cell exCellIdZ at
    (5,5) with signal strength zero (total signal strength 0), the
    triangulated fix does not have latitude 0 and longitude 0: both
    coordinates are NaN. -/
theorem estimateLocation_zero_signal_cex :
    ¬ ((estimateLocation 1000 [(exCellIdZ, ⟨5, 5⟩)] 0
          [⟨exCellIdZ, 0⟩]).latitude = Fl.fin 0
        ∧ (estimateLocation 1000 [(exCellIdZ, ⟨5, 5⟩)] 0
          [⟨exCellIdZ, 0⟩]).longitude = Fl.fin 0) := by
  have h : weightedPosition [(exCellIdZ, ⟨5, 5⟩)] 0 [⟨exCellIdZ, 0⟩]
      = (Fl.nan, Fl.nan) :=
    wp_foldl_zero_total _ _ 0 0 (by decide) ⟨⟨exCellIdZ, 0⟩, by decide, by decide⟩
  unfold estimateLocation
  rw [h]
  intro hc
  exact absurd hc.1 (by simp)

/-- Claim C4 amended: for a non-empty set of resolved cell observations
    whose signal strengths are all zero (total signal strength 0), the
    computed fix has NaN latitude and longitude: each weight is the IEEE
    division 0/0 = NaN, which propagates through the accumulation.  No
    division-by-zero fault occurs (the computation is total); the
    coordinates are NaN, not 0. -/
theorem estimateLocation_zero_signal_nan (now : ℤ)
    (locs : List (MlsdbUniqueCellId × MlsdbCoords))
    (cells : List CellPositioningData)
    (hzero : ∀ c ∈ cells, c.signalStrength = 0)
    (hres : ∃ c ∈ cells, (alookup locs c.uniqueCellId).isSome) :
    (estimateLocation now locs 0 cells).latitude = Fl.nan
      ∧ (estimateLocation now locs 0 cells).longitude = Fl.nan := by
  have h : weightedPosition locs 0 cells = (Fl.nan, Fl.nan) :=
    wp_foldl_zero_total locs cells 0 0 hzero hres
  unfold estimateLocation
  rw [h]
  exact ⟨rfl, rfl⟩

/-- Witness for the amended claim C4: one resolved zero-strength cell at
    (5,5) yields NaN latitude and longitude. -/
theorem estimateLocation_zero_signal_nan_witness :
    (estimateLocation 1000 [(exCellIdZ, ⟨5, 5⟩)] 0
        [⟨exCellIdZ, 0⟩]).latitude = Fl.nan
      ∧ (estimateLocation 1000 [(exCellIdZ, ⟨5, 5⟩)] 0
        [⟨exCellIdZ, 0⟩]).longitude = Fl.nan :=
  estimateLocation_zero_signal_nan 1000 [(exCellIdZ, ⟨5, 5⟩)] [⟨exCellIdZ, 0⟩]
    (by decide) ⟨⟨exCellIdZ, 0⟩, by decide, by decide⟩

/-! ## Fix arbitration (claims C2, C3) -/

lemma fl_blt_fin (a b : ℚ) : Fl.blt (.fin a) (.fin b) = true ↔ a < b := by
  simp [Fl.blt]

/-- Claim C2 counterexample: at elapsed time exactly FallbackInterval
    (current fix timestamp 1, now 120001) with a strictly worse candidate
    accuracy (200 vs 100), the source adopts the candidate although the
    claimed adoption condition (invalid, or age strictly exceeding
    FallbackInterval, or accuracy no worse) does not hold, so the claimed
    equivalence fails at this input. -/
theorem arbitrate_boundary_cex :
    ¬ ((arbitrate 120001 cexCurrent cexCandidate = cexCandidate) ↔
        claimedAdoptCondition 120001 cexCurrent cexCandidate) := by
  unfold claimedAdoptCondition
  decide

/-- Claim C2 amended: for finite accuracies, the candidate is adopted
    exactly when the current fix is invalid (timestamp 0), or its age is
    at least FallbackInterval (the boundary case age = FallbackInterval
    adopts, unlike the claim as stated), or the candidate accuracy value is
    less than or equal to the current one; otherwise the current fix is
    kept. -/
theorem arbitrate_adopt_iff (now : ℤ) (current candidate : Location) (a b : ℚ)
    (ha : current.accuracyHorizontal = .fin a)
    (hb : candidate.accuracyHorizontal = .fin b) :
    arbitrate now current candidate = candidate ↔
      (current.timestamp = 0
        ∨ FallbackInterval ≤ now - current.timestamp
        ∨ b ≤ a) := by
  unfold arbitrate
  rw [ha, hb]
  by_cases hcond : current.timestamp ≠ 0
      ∧ (now - current.timestamp) < FallbackInterval
      ∧ Fl.blt (.fin a) (.fin b) = true
  · rw [if_pos hcond]
    obtain ⟨h1, h2, h3⟩ := hcond
    rw [fl_blt_fin] at h3
    apply iff_of_false
    · intro heq
      have h4 := congrArg Location.accuracyHorizontal heq
      rw [ha, hb] at h4
      have hab := Fl.fin.inj h4
      rw [hab] at h3
      exact lt_irrefl b h3
    · push_neg
      exact ⟨h1, by omega, h3⟩
  · rw [if_neg hcond]
    constructor
    · intro _
      by_contra hr
      push_neg at hr
      obtain ⟨hr1, hr2, hr3⟩ := hr
      exact hcond ⟨hr1, by omega, (fl_blt_fin a b).mpr hr3⟩
    · intro _
      rfl

/-- Witness for the amended claim C2: a fresh current fix with accuracy 300
    and a candidate with the better accuracy 200, so the candidate is
    adopted. -/
theorem arbitrate_adopt_iff_witness : arbitrate 60 wCur wCand = wCand :=
  (arbitrate_adopt_iff 60 wCur wCand 300 200 rfl rfl).mpr
    (Or.inr (Or.inr (by norm_num)))

/-- Claim C3 counterexample: with a fresh and accurate current fix
    (timestamp 1000, accuracy 100) and a worse online result (accuracy
    5000) arriving at the same instant, onlineLocationFound adopts the
    online fix, while passing it through the arbitration used by
    updateLocationFromCells would have kept the current fix: the online
    path bypasses the arbitration policy. -/
theorem onlineLocationFound_bypasses_arbitration_cex :
    (onlineLocationFound freshFixState 1000
        (.fin 2) (.fin 2) (.fin 5000)).currentLocation
      ≠ (setLocation freshFixState
          (arbitrate 1000 freshFixState.currentLocation
            (onlineLocation 1000 (.fin 2) (.fin 2) (.fin 5000)))).currentLocation := by
  decide

/-- Claim C3 amended: a successful online lookup result is adopted
    unconditionally: the fix built from it (current timestamp, returned
    latitude, longitude and accuracy, no altitude) is passed straight to
    setLocation and always becomes the current location; no arbitration
    against the held fix takes place on the online path. -/
theorem onlineLocationFound_adopts_unconditionally (st : ProviderState)
    (now : ℤ) (latitude longitude accuracy : Fl) :
    (onlineLocationFound st now latitude longitude accuracy).currentLocation
      = onlineLocation now latitude longitude accuracy := by
  unfold onlineLocationFound setLocation
  split <;> rfl

/-! ## Cache idempotence (claim C5) -/

/-- Claim C5: resolving a cell id a second time (after any first
    resolution) issues no external dataset lookup and returns the same
    result with the same cache state; a previously unseen id issues exactly
    one external lookup, which caches the coordinates on success and
    records the id as unresolvable on failure. -/
theorem resolveCell_cache_idempotent :
    (∀ (search : MlsdbUniqueCellId → Option MlsdbCoords) (st : CacheState)
        (id : MlsdbUniqueCellId),
        resolveCell search (resolveCell search st id).cache id
          = ⟨(resolveCell search st id).cache,
             (resolveCell search st id).result, 0⟩)
    ∧ (∀ (search : MlsdbUniqueCellId → Option MlsdbCoords) (st : CacheState)
        (id : MlsdbUniqueCellId),
        alookup st.uniqueCellIdToLocation id = none →
        id ∉ st.knownCellIdsWithUnknownLocations →
        (resolveCell search st id).lookups = 1
        ∧ (∀ coords, search id = some coords →
            (resolveCell search st id).result = some coords
            ∧ alookup (resolveCell search st id).cache.uniqueCellIdToLocation id
                = some coords)
        ∧ (search id = none →
            (resolveCell search st id).result = none
            ∧ id ∈ (resolveCell search st id).cache.knownCellIdsWithUnknownLocations)) := by
  constructor
  · intro search st id
    cases h1 : alookup st.uniqueCellIdToLocation id with
    | some coords => simp [resolveCell, h1]
    | none =>
      by_cases h2 : id ∈ st.knownCellIdsWithUnknownLocations
      · simp [resolveCell, h1, h2]
      · cases h3 : search id with
        | some coords => simp [resolveCell, h1, h2, h3, alookup]
        | none => simp [resolveCell, h1, h2, h3, alookup]
  · intro search st id h1 h2
    refine ⟨?_, ?_, ?_⟩
    · cases h3 : search id with
      | some coords => simp [resolveCell, h1, h2, h3]
      | none => simp [resolveCell, h1, h2, h3]
    · intro coords hc
      constructor
      · simp [resolveCell, h1, h2, hc]
      · simp [resolveCell, h1, h2, hc, alookup]
    · intro hn
      constructor
      · simp [resolveCell, h1, h2, hn]
      · simp [resolveCell, h1, h2, hn]

/-- Witness for claim C5: resolving exCellIdA against empty caches issues
    exactly one dataset lookup; resolving it again changes nothing and
    issues none. -/
theorem resolveCell_cache_idempotent_witness :
    (resolveCell exSearch ⟨[], []⟩ exCellIdA).lookups = 1
    ∧ resolveCell exSearch (resolveCell exSearch ⟨[], []⟩ exCellIdA).cache exCellIdA
        = ⟨(resolveCell exSearch ⟨[], []⟩ exCellIdA).cache,
           (resolveCell exSearch ⟨[], []⟩ exCellIdA).result, 0⟩ :=
  ⟨(resolveCell_cache_idempotent.2 exSearch ⟨[], []⟩ exCellIdA rfl (by simp)).1,
   resolveCell_cache_idempotent.1 exSearch ⟨[], []⟩ exCellIdA⟩

/-! ## Cache disjointness (claim C6) -/

lemma resolveCell_preserves_disjoint
    (search : MlsdbUniqueCellId → Option MlsdbCoords) (st : CacheState)
    (id : MlsdbUniqueCellId) (h : CacheDisjoint st) :
    CacheDisjoint (resolveCell search st id).cache := by
  cases h1 : alookup st.uniqueCellIdToLocation id with
  | some coords => simpa [resolveCell, h1] using h
  | none =>
    by_cases h2 : id ∈ st.knownCellIdsWithUnknownLocations
    · simpa [resolveCell, h1, h2] using h
    · cases h3 : search id with
      | some coords =>
        simp only [resolveCell, h1, h2, h3]
        intro x hx
        have hne : ¬ (id = x) := fun he => h2 (he ▸ hx)
        simp only [alookup, hne, if_false]
        exact h x hx
      | none =>
        simp only [resolveCell, h1, h2, h3]
        intro x hx
        rcases List.mem_cons.mp hx with rfl | hx2
        · exact h1
        · exact h x hx2

lemma gatherStep_cache (search : MlsdbUniqueCellId → Option MlsdbCoords)
    (acc : GatherResult) (cell : CellPositioningData) :
    (gatherStep search acc cell).cache
      = (resolveCell search acc.cache cell.uniqueCellId).cache := by
  unfold gatherStep
  cases h : resolveCell search acc.cache cell.uniqueCellId with
  | mk cache result lookups => cases result <;> rfl

lemma gather_foldl_preserves_disjoint
    (search : MlsdbUniqueCellId → Option MlsdbCoords) :
    ∀ (cells : List CellPositioningData) (acc : GatherResult),
      CacheDisjoint acc.cache →
      CacheDisjoint ((cells.foldl (gatherStep search) acc).cache) := by
  intro cells
  induction cells with
  | nil => intro acc h; exact h
  | cons c cs ih =>
    intro acc h
    simp only [List.foldl_cons]
    apply ih
    rw [gatherStep_cache]
    exact resolveCell_preserves_disjoint search acc.cache c.uniqueCellId h

/-- Claim C6: at every reachable cache state, a cell id is in at most one
    of the positive and negative caches: the initial state establishes the
    exclusivity and every cache-mutating operation (each resolution pass of
    updateLocationFromCells) preserves it. -/
theorem reachable_cache_disjoint (st : CacheState) (h : ReachableCache st) :
    CacheDisjoint st := by
  induction h with
  | init => intro x hx; cases hx
  | step search cells hst ih =>
    exact gather_foldl_preserves_disjoint search cells _ ih

/-- Witness for claim C6: the cache reached by one recomputation pass over
    exCells starting from empty caches is disjoint. -/
theorem reachable_cache_disjoint_witness :
    CacheDisjoint (gatherCellLocations exSearch ⟨[], []⟩ exCells).cache :=
  reachable_cache_disjoint _
    (ReachableCache.step exSearch exCells ReachableCache.init)

/-! ## Effective recomputation interval (claim C7) -/

lemma foldl_min_le (t : List ℕ) : ∀ acc : ℕ, t.foldl min acc ≤ acc := by
  induction t with
  | nil => intro acc; exact le_refl acc
  | cons x xs ih =>
    intro acc
    simp only [List.foldl_cons]
    exact le_trans (ih (min acc x)) (min_le_left acc x)

lemma requestedFold_eq_filter (l : List ServiceData)
    (href : ∀ d ∈ l, d.referenceCount ≠ 0) :
    ∀ acc : ℕ,
      l.foldl (fun acc d =>
        if d.referenceCount = 0 then acc
        else if d.updateInterval = 0 then acc
        else min acc d.updateInterval) acc
      = ((l.map (fun d => d.updateInterval)).filter
          (fun i => i != 0)).foldl min acc := by
  induction l with
  | nil => intro acc; rfl
  | cons d ds ih =>
    intro acc
    have hd : d.referenceCount ≠ 0 := href d (List.mem_cons_self d ds)
    have hds : ∀ x ∈ ds, x.referenceCount ≠ 0 :=
      fun x hx => href x (List.mem_cons_of_mem d hx)
    by_cases hu : d.updateInterval = 0
    · simp [List.filter_cons, hd, hu, ih hds]
    · simp [List.filter_cons, hd, hu, ih hds]

/-- Claim C7 counterexample: a single active subscriber requesting exactly
    4294967295 ms collides with the internal UINT_MAX sentinel: the source
    returns MinimumInterval (10000) while the claimed formula (minimum of
    non-zero requested intervals floored at 10000) gives 4294967295. -/
theorem minimumRequestedUpdateInterval_sentinel_cex :
    minimumRequestedUpdateInterval [⟨1, 4294967295⟩]
      ≠ effectiveIntervalSpec [⟨1, 4294967295⟩] := by
  decide

/-- Claim C7 amended: provided every subscriber entry is active (positive
    reference count, as the subscriber invariant requires) and every
    requested interval is below 4294967295 (UINT_MAX, which the source uses
    as an internal sentinel and therefore treats as no preference), the
    effective interval is the minimum of the non-zero requested intervals
    floored at MinimumInterval, and MinimumInterval when no subscriber has
    a non-zero requested interval. -/
theorem minimumRequestedUpdateInterval_matches_spec (services : List ServiceData)
    (href : ∀ d ∈ services, d.referenceCount ≠ 0)
    (hlt : ∀ d ∈ services, d.updateInterval < UINT32_MAX) :
    minimumRequestedUpdateInterval services = effectiveIntervalSpec services := by
  unfold minimumRequestedUpdateInterval requestedFold effectiveIntervalSpec
  rw [requestedFold_eq_filter services href UINT32_MAX]
  cases hf : (services.map (fun d => d.updateInterval)).filter (fun i => i != 0) with
  | nil => simp
  | cons h t =>
    have hmem : h ∈ (services.map (fun d => d.updateInterval)).filter
        (fun i => i != 0) := by
      rw [hf]
      exact List.mem_cons_self h t
    have hh : h < UINT32_MAX := by
      have h1 := List.mem_filter.mp hmem
      obtain ⟨d, hd, hde⟩ := List.mem_map.mp h1.1
      exact hde ▸ hlt d hd
    simp only [List.foldl_cons]
    rw [min_eq_right (le_of_lt hh)]
    have hle : t.foldl min h ≤ h := foldl_min_le t h
    rw [if_neg (by omega : ¬ t.foldl min h = UINT32_MAX)]

/-- Witness for the amended claim C7: active subscribers requesting 0, 5000
    and 50000 ms give effective interval 10000 ms. -/
theorem minimumRequestedUpdateInterval_matches_spec_witness :
    minimumRequestedUpdateInterval [⟨1, 0⟩, ⟨1, 5000⟩, ⟨1, 50000⟩] = 10000 := by
  have h := minimumRequestedUpdateInterval_matches_spec
    [⟨1, 0⟩, ⟨1, 5000⟩, ⟨1, 50000⟩] (by decide) (by decide)
  rw [h]
  decide

/-! ## SetOptions (claim C8) -/

lemma alookup_setServiceInterval (l : List (ServiceId × ServiceData))
    (s : ServiceId) (v : ℕ) (d : ServiceData) (h : alookup l s = some d) :
    alookup (setServiceInterval l s v) s
      = some { d with updateInterval := v } := by
  induction l with
  | nil => simp [alookup] at h
  | cons p t ih =>
    by_cases hp : p.1 = s
    · have hd : p.2 = d := by
        have h2 := h
        simp only [alookup, hp, if_pos] at h2
        exact Option.some.inj h2
      simp [setServiceInterval, alookup, hp, hd]
    · have ht : alookup t s = some d := by
        simpa [alookup, hp] using h
      have ih2 := ih ht
      simp only [setServiceInterval] at ih2 ⊢
      simp [alookup, hp, ih2]

/-- Claim C8: a SetOptions call from a caller with no active subscriber
    entry is rejected (the early-return warning path) and leaves the whole
    engine state unchanged; a call from an active caller carrying an
    UpdateInterval updates that caller entry and immediately restarts the
    recalculation timer at the recomputed minimum interval, leaving every
    other state component unchanged. -/
theorem SetOptions_rejects_and_updates :
    (∀ (st : ProviderState) (s : ServiceId) (o : Option ℕ),
        alookup st.watchedServices s = none →
        SetOptions st s o = (st, .rejected))
    ∧ (∀ (st : ProviderState) (s : ServiceId) (v : ℕ) (d : ServiceData),
        alookup st.watchedServices s = some d →
        (SetOptions st s (some v)).2 = .accepted
        ∧ (SetOptions st s (some v)).1
            = { st with
                watchedServices := setServiceInterval st.watchedServices s v,
                recalcTimer := some (minimumRequestedUpdateInterval
                  ((setServiceInterval st.watchedServices s v).map Prod.snd)) }
        ∧ alookup (SetOptions st s (some v)).1.watchedServices s
            = some { d with updateInterval := v }) := by
  constructor
  · intro st s o h
    simp [SetOptions, h]
  · intro st s v d h
    refine ⟨?_, ?_, ?_⟩
    · simp [SetOptions, h]
    · simp [SetOptions, h]
    · simp only [SetOptions, h]
      exact alookup_setServiceInterval st.watchedServices s v d h

/-- Witness for claim C8: in svcState, service 5 has no entry and is
    rejected with the state unchanged, while service 1 setting 7000 ms is
    accepted, its entry becomes (1, 7000), and the recalculation timer
    restarts at 10000 ms (min(7000, 25000) floored at MinimumInterval). -/
theorem SetOptions_rejects_and_updates_witness :
    SetOptions svcState 5 (some 7000) = (svcState, .rejected)
    ∧ (SetOptions svcState 1 (some 7000)).2 = .accepted
    ∧ alookup (SetOptions svcState 1 (some 7000)).1.watchedServices 1
        = some ⟨1, 7000⟩
    ∧ (SetOptions svcState 1 (some 7000)).1.recalcTimer = some 10000 := by
  refine ⟨?_, ?_, ?_, ?_⟩
  · exact SetOptions_rejects_and_updates.1 svcState 5 (some 7000) (by decide)
  · exact (SetOptions_rejects_and_updates.2 svcState 1 7000 ⟨1, 0⟩ (by decide)).1
  · exact (SetOptions_rejects_and_updates.2 svcState 1 7000 ⟨1, 0⟩ (by decide)).2.2
  · have h := (SetOptions_rejects_and_updates.2 svcState 1 7000 ⟨1, 0⟩ (by decide)).2.1
    rw [h]
    decide

/-! ## Status state machine and fix-lost timer (claim C9) -/

lemma setStatus_status (st : ProviderState) (s : YPStatus) :
    (setStatus st s).status = s := by
  unfold setStatus
  by_cases h : st.status = s
  · rw [if_pos h]
    exact h
  · rw [if_neg h]

lemma setStatus_fixLostRunning (st : ProviderState) (s : YPStatus) :
    (setStatus st s).fixLostRunning = st.fixLostRunning := by
  unfold setStatus
  split <;> rfl

lemma setLocation_adopt (st : ProviderState) (loc : Location)
    (h : loc.timestamp ≠ 0) :
    (setLocation st loc).status = .available
      ∧ (setLocation st loc).fixLostRunning = true := by
  unfold setLocation
  rw [if_pos h]
  constructor
  · show (setStatus st .available).status = .available
    exact setStatus_status st .available
  · rfl

lemma setLocation_skip (st : ProviderState) (loc : Location)
    (h : loc.timestamp = 0) :
    (setLocation st loc).status = st.status
      ∧ (setLocation st loc).fixLostRunning = st.fixLostRunning := by
  unfold setLocation
  rw [if_neg (by simp [h])]
  exact ⟨rfl, rfl⟩

lemma stopPositioning_status (st : ProviderState) :
    (stopPositioningIfNeeded st).status = st.status
      ∨ (stopPositioningIfNeeded st).status = .unavailable := by
  unfold stopPositioningIfNeeded
  by_cases h1 : st.positioningStarted = false
  · rw [if_pos h1]
    exact Or.inl rfl
  · rw [if_neg h1]
    by_cases h2 : st.positioningEnabled = true ∧ st.watchedServices ≠ []
    · rw [if_pos h2]
      exact Or.inl rfl
    · rw [if_neg h2]
      exact Or.inr (setStatus_status _ _)

lemma stopPositioning_fixLost (st : ProviderState) :
    (stopPositioningIfNeeded st).fixLostRunning = st.fixLostRunning
      ∨ (stopPositioningIfNeeded st).fixLostRunning = false := by
  unfold stopPositioningIfNeeded
  by_cases h1 : st.positioningStarted = false
  · rw [if_pos h1]
    exact Or.inl rfl
  · rw [if_neg h1]
    by_cases h2 : st.positioningEnabled = true ∧ st.watchedServices ≠ []
    · rw [if_pos h2]
      exact Or.inl rfl
    · rw [if_neg h2]
      exact Or.inr rfl

lemma SetOptions_fst_status_fixLost (st : ProviderState) (s : ServiceId)
    (o : Option ℕ) :
    (SetOptions st s o).1.status = st.status
      ∧ (SetOptions st s o).1.fixLostRunning = st.fixLostRunning := by
  unfold SetOptions
  cases alookup st.watchedServices s with
  | none => exact ⟨rfl, rfl⟩
  | some d =>
    cases o with
    | none => exact ⟨rfl, rfl⟩
    | some v => exact ⟨rfl, rfl⟩

lemma nonAdoption_preserves (st : ProviderState) (e : Ev)
    (hne : isAdoption e = false)
    (h1 : st.fixLostRunning = false) (h2 : st.status ≠ .available) :
    (stepEv st e).fixLostRunning = false
      ∧ (stepEv st e).status ≠ .available := by
  cases e with
  | fixLostFire =>
    simp only [stepEv, h1]
    exact ⟨h1, h2⟩
  | setLocationEv loc =>
    have hts : loc.timestamp = 0 := by
      simpa [isAdoption] using hne
    have hs := setLocation_skip st loc hts
    show (setLocation st loc).fixLostRunning = false
      ∧ (setLocation st loc).status ≠ .available
    rw [hs.1, hs.2]
    exact ⟨h1, h2⟩
  | stopPositioningEv =>
    constructor
    · show (stopPositioningIfNeeded st).fixLostRunning = false
      rcases stopPositioning_fixLost st with h | h
      · rw [h]
        exact h1
      · exact h
    · show (stopPositioningIfNeeded st).status ≠ .available
      rcases stopPositioning_status st with h | h
      · rw [h]
        exact h2
      · rw [h]
        decide
  | setOptionsEv s o =>
    have h := SetOptions_fst_status_fixLost st s o
    show (SetOptions st s o).1.fixLostRunning = false
      ∧ (SetOptions st s o).1.status ≠ .available
    rw [h.1, h.2]
    exact ⟨h1, h2⟩

/-- Claim C9: (i) from Available with the fix-lost timer armed, the timer
    firing moves the status to Acquiring and disarms the timer; (ii) with
    the timer disarmed and status not Available, any sequence of
    non-adoption events keeps the timer disarmed and the status away from
    Available, so the Available-to-Acquiring timeout transition cannot
    repeat without a new adoption; (iii) every adoption (setLocation with
    non-zero timestamp) sets status Available and (re)arms the fix-lost
    timer; (iv) any step that enters Available is an adoption and leaves
    the timer armed. -/
theorem fixLost_status_transition :
    (∀ st : ProviderState, st.status = .available → st.fixLostRunning = true →
        (stepEv st .fixLostFire).status = .acquiring
        ∧ (stepEv st .fixLostFire).fixLostRunning = false)
    ∧ (∀ (st : ProviderState) (evs : List Ev),
        st.fixLostRunning = false → st.status ≠ .available →
        (∀ e ∈ evs, isAdoption e = false) →
        (evs.foldl stepEv st).fixLostRunning = false
        ∧ (evs.foldl stepEv st).status ≠ .available)
    ∧ (∀ (st : ProviderState) (loc : Location), loc.timestamp ≠ 0 →
        (setLocation st loc).status = .available
        ∧ (setLocation st loc).fixLostRunning = true)
    ∧ (∀ (st : ProviderState) (e : Ev), st.status ≠ .available →
        (stepEv st e).status = .available →
        isAdoption e = true ∧ (stepEv st e).fixLostRunning = true) := by
  refine ⟨?_, ?_, ?_, ?_⟩
  · intro st _ h2
    simp only [stepEv, h2, if_true]
    constructor
    · exact setStatus_status _ _
    · rw [setStatus_fixLostRunning]
  · intro st evs h1 h2 hne
    induction evs generalizing st with
    | nil => exact ⟨h1, h2⟩
    | cons e es ih =>
      have he : isAdoption e = false := hne e (List.mem_cons_self e es)
      have hes : ∀ x ∈ es, isAdoption x = false :=
        fun x hx => hne x (List.mem_cons_of_mem e hx)
      have hp := nonAdoption_preserves st e he h1 h2
      simp only [List.foldl_cons]
      exact ih (stepEv st e) hp.1 hp.2 hes
  · intro st loc h
    exact setLocation_adopt st loc h
  · intro st e h2 hav
    cases e with
    | fixLostFire =>
      exfalso
      by_cases hr : st.fixLostRunning
      · have : (stepEv st .fixLostFire).status = .acquiring := by
          simp only [stepEv, hr, if_true]
          exact setStatus_status _ _
        rw [this] at hav
        cases hav
      · have : stepEv st .fixLostFire = st := by
          simp [stepEv, hr]
        rw [this] at hav
        exact h2 hav
    | setLocationEv loc =>
      by_cases hts : loc.timestamp = 0
      · exfalso
        have hs := setLocation_skip st loc hts
        have : (stepEv st (.setLocationEv loc)).status = st.status := hs.1
        rw [this] at hav
        exact h2 hav
      · constructor
        · simp [isAdoption, hts]
        · exact (setLocation_adopt st loc hts).2
    | stopPositioningEv =>
      exfalso
      rcases stopPositioning_status st with h | h
      · rw [show (stepEv st .stopPositioningEv).status
            = (stopPositioningIfNeeded st).status from rfl, h] at hav
        exact h2 hav
      · rw [show (stepEv st .stopPositioningEv).status
            = (stopPositioningIfNeeded st).status from rfl, h] at hav
        cases hav
    | setOptionsEv s o =>
      exfalso
      have h := SetOptions_fst_status_fixLost st s o
      rw [show (stepEv st (.setOptionsEv s o)).status
          = (SetOptions st s o).1.status from rfl, h.1] at hav
      exact h2 hav

/-- Witness for claim C9: in freshFixState (Available, timer armed), the
    fix-lost timeout fires once, moving the status to Acquiring and
    disarming the timer. -/
theorem fixLost_status_transition_witness :
    (stepEv freshFixState .fixLostFire).status = .acquiring
      ∧ (stepEv freshFixState .fixLostFire).fixLostRunning = false :=
  fixLost_status_transition.1 freshFixState rfl rfl

/-! ## seenCellIds properties (claim C10) -/

lemma seenStep_none (acc : List CellPositioningData × List MlsdbUniqueCellId)
    (c : OfonoCell) (h : cellIdentityOf c = none) : seenStep acc c = acc := by
  unfold seenStep
  rw [h]

lemma seenStep_seen (acc : List CellPositioningData × List MlsdbUniqueCellId)
    (c : OfonoCell) (id : MlsdbUniqueCellId) (h : cellIdentityOf c = some id)
    (hm : id ∈ acc.2) : seenStep acc c = acc := by
  unfold seenStep
  rw [h]
  exact if_pos hm

lemma seenStep_new (acc : List CellPositioningData × List MlsdbUniqueCellId)
    (c : OfonoCell) (id : MlsdbUniqueCellId) (h : cellIdentityOf c = some id)
    (hm : id ∉ acc.2) :
    seenStep acc c = (acc.1 ++ [⟨id, c.signalStrength⟩], id :: acc.2) := by
  unfold seenStep
  rw [h]
  exact if_neg hm

lemma seenStep_inv (acc : List CellPositioningData × List MlsdbUniqueCellId)
    (c : OfonoCell) (h : SeenInv acc) : SeenInv (seenStep acc c) := by
  cases hid : cellIdentityOf c with
  | none =>
    rw [seenStep_none acc c hid]
    exact h
  | some id =>
    by_cases hm : id ∈ acc.2
    · rw [seenStep_seen acc c id hid hm]
      exact h
    · rw [seenStep_new acc c id hid hm]
      obtain ⟨hnd, hsync⟩ := h
      constructor
      · show ((acc.1 ++ [(⟨id, c.signalStrength⟩ : CellPositioningData)]).map
            (fun o : CellPositioningData => o.uniqueCellId)).Nodup
        rw [List.map_append]
        refine List.Nodup.append hnd (by simp) ?_
        intro x hx hx2
        simp at hx2
        subst hx2
        exact hm ((hsync x).mpr hx)
      · intro x
        show x ∈ id :: acc.2 ↔
          x ∈ (acc.1 ++ [(⟨id, c.signalStrength⟩ : CellPositioningData)]).map
            (fun o : CellPositioningData => o.uniqueCellId)
        rw [List.map_append]
        simp only [List.mem_cons, List.mem_append, List.map_cons, List.map_nil,
          List.mem_singleton]
        rw [hsync x]
        tauto

lemma seen_foldl_inv (raws : List OfonoCell) :
    ∀ acc, SeenInv acc → SeenInv (raws.foldl seenStep acc) := by
  induction raws with
  | nil => intro acc h; exact h
  | cons c cs ih =>
    intro acc h
    simp only [List.foldl_cons]
    exact ih _ (seenStep_inv acc c h)

lemma seen_foldl_origin (raws : List OfonoCell) :
    ∀ acc obs, obs ∈ (raws.foldl seenStep acc).1 →
      obs ∈ acc.1 ∨ ∃ c ∈ raws, cellIdentityOf c = some obs.uniqueCellId
        ∧ obs.signalStrength = c.signalStrength := by
  induction raws with
  | nil => intro acc obs h; exact Or.inl h
  | cons c cs ih =>
    intro acc obs h
    simp only [List.foldl_cons] at h
    rcases ih _ obs h with hin | ⟨a, ha, hae, has⟩
    · cases hid : cellIdentityOf c with
      | none =>
        rw [seenStep_none acc c hid] at hin
        exact Or.inl hin
      | some id =>
        by_cases hm : id ∈ acc.2
        · rw [seenStep_seen acc c id hid hm] at hin
          exact Or.inl hin
        · rw [seenStep_new acc c id hid hm] at hin
          rcases List.mem_append.mp hin with hin1 | hin2
          · exact Or.inl hin1
          · simp only [List.mem_singleton] at hin2
            subst hin2
            exact Or.inr ⟨c, List.mem_cons_self c cs, hid, rfl⟩
    · exact Or.inr ⟨a, List.mem_cons_of_mem c ha, hae, has⟩

lemma seen_foldl_mono (raws : List OfonoCell) :
    ∀ acc id, id ∈ acc.2 → id ∈ (raws.foldl seenStep acc).2 := by
  induction raws with
  | nil => intro acc id h; exact h
  | cons c cs ih =>
    intro acc id h
    simp only [List.foldl_cons]
    apply ih
    cases hid : cellIdentityOf c with
    | none =>
      rw [seenStep_none acc c hid]
      exact h
    | some i =>
      by_cases hm : i ∈ acc.2
      · rw [seenStep_seen acc c i hid hm]
        exact h
      · rw [seenStep_new acc c i hid hm]
        exact List.mem_cons_of_mem i h

lemma seen_foldl_complete (raws : List OfonoCell) :
    ∀ acc id, (∃ c ∈ raws, cellIdentityOf c = some id) →
      id ∈ (raws.foldl seenStep acc).2 := by
  induction raws with
  | nil =>
    intro acc id h
    simp at h
  | cons c cs ih =>
    intro acc id h
    simp only [List.foldl_cons]
    obtain ⟨a, ha, hae⟩ := h
    rcases List.mem_cons.mp ha with rfl | ha2
    · apply seen_foldl_mono
      by_cases hm : id ∈ acc.2
      · rw [seenStep_seen acc a id hae hm]
        exact hm
      · rw [seenStep_new acc a id hae hm]
        exact List.mem_cons_self id _
    · exact ih _ id ⟨a, ha2, hae⟩

/-- Claim C10: seenCellIds returns the empty list when cell data is not
    allowed; otherwise the returned observations carry pairwise distinct
    cell identities, every observation originates from a raw cell passing
    the validity check (usable cell id and non-zero mcc, identity and
    strength taken from that cell), and every identity derivable from some
    raw cell appears in the result, hence exactly once. -/
theorem seenCellIds_distinct_valid :
    (∀ raws : List OfonoCell, seenCellIds false raws = [])
    ∧ (∀ raws : List OfonoCell,
        ((seenCellIds true raws).map (fun o => o.uniqueCellId)).Nodup)
    ∧ (∀ (raws : List OfonoCell) (obs : CellPositioningData),
        obs ∈ seenCellIds true raws →
        ∃ c ∈ raws, cellIdentityOf c = some obs.uniqueCellId
          ∧ obs.signalStrength = c.signalStrength)
    ∧ (∀ (raws : List OfonoCell) (id : MlsdbUniqueCellId),
        (∃ c ∈ raws, cellIdentityOf c = some id) →
        id ∈ (seenCellIds true raws).map (fun o => o.uniqueCellId)) := by
  have hInv : ∀ raws : List OfonoCell, SeenInv (raws.foldl seenStep ([], [])) :=
    fun raws => seen_foldl_inv raws ([], []) ⟨by simp, by simp⟩
  refine ⟨?_, ?_, ?_, ?_⟩
  · intro raws
    rfl
  · intro raws
    exact (hInv raws).1
  · intro raws obs h
    rcases seen_foldl_origin raws ([], []) obs h with hin | h3
    · simp at hin
    · exact h3
  · intro raws id h
    exact ((hInv raws).2 id).mp (seen_foldl_complete raws ([], []) id h)

/-- Witness for claim C10: for two sightings of the same GSM cell plus one
    cell with no usable id, the result has pairwise distinct identities and
    contains the identity of the duplicated cell. -/
theorem seenCellIds_distinct_valid_witness :
    ((seenCellIds true [exRawA, exRawB, exRawBad]).map
        (fun o => o.uniqueCellId)).Nodup
    ∧ (⟨.gsm, 42, 5, 262, 1⟩ : MlsdbUniqueCellId)
        ∈ (seenCellIds true [exRawA, exRawB, exRawBad]).map
          (fun o => o.uniqueCellId) := by
  constructor
  · exact seenCellIds_distinct_valid.2.1 [exRawA, exRawB, exRawBad]
  · exact seenCellIds_distinct_valid.2.2.2 [exRawA, exRawB, exRawBad]
      ⟨.gsm, 42, 5, 262, 1⟩ ⟨exRawA, by decide, by decide⟩
